import Mathlib

/-!
Verification of the whisper-thread subsystem and moderation permission
check of the onWhisper bot (`cogs/whisper.py`, `cogs/moderation.py`).

The embedding mirrors the Python source:
* `WhisperRecord` is one row of the `whispers` table.
* the store is the list of rows, in insertion order; `INSERT` appends,
  the close-time `UPDATE` maps over every row matching the `WHERE` clause.
* the in-memory registry `self._active_whispers : guild_id -> {user_id: thread_id}`
  is an association list of association lists with Python-dict semantics
  (assignment replaces, `pop` removes, `.get` returns the first binding).
* fallible platform / store calls are modelled by boolean success flags in
  an environment record; an exception raised by a call makes the operation
  take the corresponding failure branch exactly where the Python
  `try`/`except` structure sends it.  Ephemeral replies to the invoking
  user are modelled in the result value, durable side effects
  (messages posted into threads, store writes, registry writes,
  archiving) in an effect trace.
-/

namespace OnWhisper

/-- One row of the `whispers` table:
`(guild_id, user_id, thread_id, created_at, closed_at, is_open)`. -/
structure WhisperRecord where
  guild_id : Nat
  user_id : Nat
  thread_id : Nat
  created_at : Nat
  closed_at : Option Nat
  is_open : Bool
deriving DecidableEq

/-- The `whispers` table, rows in insertion order. -/
abbrev Store := List WhisperRecord

/-- One guild's `{user_id: thread_id}` dictionary. -/
abbrev UserMap := List (Nat × Nat)

/-- The registry `self._active_whispers : {guild_id: {user_id: thread_id}}`. -/
abbrev Cache := List (Nat × UserMap)

/-- Python dict assignment `m[u] = t`: replace the binding if the key is
present, otherwise append it. -/
def umInsert (m : UserMap) (u t : Nat) : UserMap :=
  match m with
  | [] => [(u, t)]
  | (u', t') :: rest => if u' == u then (u, t) :: rest else (u', t') :: umInsert rest u t

/-- Python dict read `m.get(u)`. -/
def umLookup (m : UserMap) (u : Nat) : Option Nat :=
  match m with
  | [] => none
  | (u', t') :: rest => if u' == u then some t' else umLookup rest u

/-- Python dict removal `m.pop(u, None)`. -/
def umErase (m : UserMap) (u : Nat) : UserMap :=
  match m with
  | [] => []
  | (u', t') :: rest => if u' == u then umErase rest u else (u', t') :: umErase rest u

/-- `self._active_whispers.get(g)`. -/
def cacheGet (c : Cache) (g : Nat) : Option UserMap :=
  match c with
  | [] => none
  | (g', m) :: rest => if g' == g then some m else cacheGet rest g

/-- `self._active_whispers[g] = m`. -/
def cacheSet (c : Cache) (g : Nat) (m : UserMap) : Cache :=
  match c with
  | [] => [(g, m)]
  | (g', m') :: rest => if g' == g then (g, m) :: rest else (g', m') :: cacheSet rest g m

/-- The duplicate-open check of `create_whisper`:
`(active := self._active_whispers.get(g)) and u in active`, returning the
cached thread id.  (A present-but-empty guild dict behaves like an absent
one in both the Python truthiness test and this lookup.) -/
def lookupWhisper (c : Cache) (g u : Nat) : Option Nat :=
  match cacheGet c g with
  | none => none
  | some m => umLookup m u

/-- Registry write of `_create_whisper_thread`:
`if g not in cache: cache[g] = {}` then `cache[g][u] = t`. -/
def cacheInsert (c : Cache) (g u t : Nat) : Cache :=
  match cacheGet c g with
  | none => cacheSet c g (umInsert [] u t)
  | some m => cacheSet c g (umInsert m u t)

/-- Registry removal of `close_whisper`:
`if g in cache: cache[g].pop(u, None)`. -/
def cachePop (c : Cache) (g u : Nat) : Cache :=
  match cacheGet c g with
  | none => c
  | some m => cacheSet c g (umErase m u)

/-- Rows of the store matching
`WHERE guild_id = g AND user_id = u AND is_open = 1`. -/
def openRecordsFor (s : Store) (g u : Nat) : List WhisperRecord :=
  s.filter (fun r => r.guild_id == g && r.user_id == u && r.is_open)

/-- Rows matching `WHERE guild_id = g AND thread_id = tid AND is_open = 1`
(the `SELECT` of `close_whisper`). -/
def openByThread (s : Store) (g tid : Nat) : List WhisperRecord :=
  s.filter (fun r => r.guild_id == g && r.thread_id == tid && r.is_open)

/-- Rows matching `WHERE guild_id = g AND is_open = 1`
(the per-guild `SELECT` of `cog_load`). -/
def guildOpen (s : Store) (g : Nat) : List WhisperRecord :=
  s.filter (fun r => r.guild_id == g && r.is_open)

/-- The close-time write
`UPDATE whispers SET is_open = 0, closed_at = now WHERE guild_id = g AND thread_id = tid`.
Note the `WHERE` clause does not test `is_open`. -/
def markClosed (s : Store) (g tid now : Nat) : Store :=
  s.map (fun r =>
    if r.guild_id == g && r.thread_id == tid then
      { r with is_open := false, closed_at := some now }
    else r)

/-- Durable side effects of the whisper operations, in execution order. -/
inductive Effect where
  | setupChannel (g : Nat)
  | createThread (g t : Nat)
  | postInitialMsg (t : Nat)
  | storeInsert (g u t now : Nat)
  | registryAdd (g u t : Nat)
  | postCloseMsg (t : Nat)
  | storeMarkClosed (g t now : Nat)
  | registryRemove (g u : Nat)
  | archiveLock (t : Nat)
deriving DecidableEq

/-- Success flags and fresh data for one run of the `/whisper` command:
`whisper_enabled` is the configured feature flag, the `_ok` flags say
whether the corresponding platform / store call succeeds (raises no
exception), `new_thread_id` is the id the platform assigns to a freshly
created thread, `now` the clock reading used for `created_at`. -/
structure OpenEnv where
  whisper_enabled : Bool
  channel_ok : Bool
  thread_ok : Bool
  msg_ok : Bool
  insert_ok : Bool
  new_thread_id : Nat
  now : Nat
deriving DecidableEq

/-- Reply sent to the invoker of `/whisper`. -/
inductive OpenResult where
  | notEnabled
  | existingThread (t : Nat)
  | channelSetupFailed
  | threadCreateFailed
  | created (t : Nat)
deriving DecidableEq

structure OpenOut where
  result : OpenResult
  store : Store
  cache : Cache
  trace : List Effect
deriving DecidableEq

/-- `WhisperCog.create_whisper` together with its helpers
`_setup_whisper_channel` and `_create_whisper_thread`, for an invocation
by user `u` in guild `g`:
* feature disabled → refusal, nothing happens;
* registry already holds a thread for `(g, u)` → the cached reference is
  returned, nothing happens;
* channel setup fails (`_setup_whisper_channel` returns `None`) → error
  reply, nothing happens;
* otherwise `_create_whisper_thread` creates the thread, posts the
  metadata embed, runs the `INSERT`, and only then writes the registry;
  an exception at any of those steps is caught inside the helper, which
  returns `None`, so a failure before—or at—the `INSERT` leaves both the
  store and the registry unchanged. -/
def create_whisper (env : OpenEnv) (g u : Nat) (s : Store) (c : Cache) : OpenOut :=
  if env.whisper_enabled = false then ⟨.notEnabled, s, c, []⟩
  else
    match lookupWhisper c g u with
    | some t => ⟨.existingThread t, s, c, []⟩
    | none =>
      if env.channel_ok = false then ⟨.channelSetupFailed, s, c, []⟩
      else if env.thread_ok = false then ⟨.threadCreateFailed, s, c, [.setupChannel g]⟩
      else if env.msg_ok = false then
        ⟨.threadCreateFailed, s, c, [.setupChannel g, .createThread g env.new_thread_id]⟩
      else if env.insert_ok = false then
        ⟨.threadCreateFailed, s, c,
          [.setupChannel g, .createThread g env.new_thread_id,
           .postInitialMsg env.new_thread_id]⟩
      else
        ⟨.created env.new_thread_id,
         s ++ [⟨g, u, env.new_thread_id, env.now, none, true⟩],
         cacheInsert c g u env.new_thread_id,
         [.setupChannel g, .createThread g env.new_thread_id,
          .postInitialMsg env.new_thread_id,
          .storeInsert g u env.new_thread_id env.now,
          .registryAdd g u env.new_thread_id]⟩

/-- Success flags and clock for one run of `/close`. -/
structure CloseEnv where
  send_ok : Bool
  update_ok : Bool
  edit_ok : Bool
  now : Nat
deriving DecidableEq

/-- Reply sent to the invoker of `/close`. -/
inductive CloseResult where
  | notWhisper
  | noPermission
  | closed
  | errorCaught
deriving DecidableEq

structure CloseOut where
  result : CloseResult
  store : Store
  cache : Cache
  trace : List Effect
deriving DecidableEq

/-- `WhisperCog.close_whisper`, invoked inside thread `tid` of guild `g`
by `caller` (`isAdmin` is `caller.guild_permissions.administrator`):
* `fetchone` returns the first open row for `(g, tid)`; no row → the
  "not a whisper thread" refusal, nothing happens;
* a caller who is neither an administrator nor the row's owner is
  refused, nothing happens;
* then, in order: closing embed posted into the thread, `UPDATE` marking
  the row closed, registry `pop` of the owner, thread archived and
  locked.  An exception from the embed post or the `UPDATE` is caught by
  the handler's `except` after the store and registry were left
  untouched; an exception from the archive edit is caught after both
  writes already happened. -/
def close_whisper (env : CloseEnv) (g tid caller : Nat) (isAdmin : Bool)
    (s : Store) (c : Cache) : CloseOut :=
  match (openByThread s g tid).head? with
  | none => ⟨.notWhisper, s, c, []⟩
  | some w =>
    if isAdmin || caller == w.user_id then
      if env.send_ok = false then ⟨.errorCaught, s, c, []⟩
      else if env.update_ok = false then ⟨.errorCaught, s, c, [.postCloseMsg tid]⟩
      else if env.edit_ok = false then
        ⟨.errorCaught, markClosed s g tid env.now, cachePop c g w.user_id,
          [.postCloseMsg tid, .storeMarkClosed g tid env.now,
           .registryRemove g w.user_id]⟩
      else
        ⟨.closed, markClosed s g tid env.now, cachePop c g w.user_id,
          [.postCloseMsg tid, .storeMarkClosed g tid env.now,
           .registryRemove g w.user_id, .archiveLock tid]⟩
    else ⟨.noPermission, s, c, []⟩

/-- The per-guild body of `cog_load`: fetch the guild's open rows and, only
when there is at least one, overwrite the guild's registry dict with
`{row.user_id: row.thread_id for row in rows}` (later rows win). -/
def loadGuild (s : Store) (c : Cache) (g : Nat) : Cache :=
  let ws := guildOpen s g
  if ws.isEmpty then c
  else cacheSet c g (ws.foldl (fun m r => umInsert m r.user_id r.thread_id) [])

/-- `WhisperCog.cog_load`: rebuild the registry by iterating over the
guilds the bot is connected to.  The cache is not cleared first, and a
guild with no open rows is skipped entirely. -/
def cog_load (guilds : List Nat) (s : Store) (c : Cache) : Cache :=
  guilds.foldl (loadGuild s) c

/-! ### Registry (dictionary) lemmas -/

theorem umLookup_insert_self (m : UserMap) (u t : Nat) :
    umLookup (umInsert m u t) u = some t := by
  induction m with
  | nil => simp [umInsert, umLookup]
  | cons p rest ih =>
    obtain ⟨u', t'⟩ := p
    by_cases h : u' = u <;> simp [umInsert, umLookup, h, ih]

theorem umLookup_insert_ne (m : UserMap) (u t u' : Nat) (h : u' ≠ u) :
    umLookup (umInsert m u t) u' = umLookup m u' := by
  induction m with
  | nil => simp [umInsert, umLookup, Ne.symm h]
  | cons p rest ih =>
    obtain ⟨u₀, t₀⟩ := p
    by_cases h₀ : u₀ = u
    · subst h₀
      simp [umInsert, umLookup, Ne.symm h]
    · by_cases h₁ : u₀ = u'
      · subst h₁
        simp [umInsert, umLookup, h₀]
      · simp [umInsert, umLookup, h₀, h₁, ih]

theorem umLookup_erase_self (m : UserMap) (u : Nat) :
    umLookup (umErase m u) u = none := by
  induction m with
  | nil => simp [umErase, umLookup]
  | cons p rest ih =>
    obtain ⟨u', t'⟩ := p
    by_cases h : u' = u <;> simp [umErase, umLookup, h, ih]

theorem umLookup_erase_ne (m : UserMap) (u u' : Nat) (h : u' ≠ u) :
    umLookup (umErase m u) u' = umLookup m u' := by
  induction m with
  | nil => simp [umErase, umLookup]
  | cons p rest ih =>
    obtain ⟨u₀, t₀⟩ := p
    by_cases h₀ : u₀ = u
    · subst h₀
      simp [umErase, umLookup, Ne.symm h, ih]
    · simp [umErase, umLookup, h₀, ih]

theorem cacheGet_set_self (c : Cache) (g : Nat) (m : UserMap) :
    cacheGet (cacheSet c g m) g = some m := by
  induction c with
  | nil => simp [cacheSet, cacheGet]
  | cons p rest ih =>
    obtain ⟨g', m'⟩ := p
    by_cases h : g' = g <;> simp [cacheSet, cacheGet, h, ih]

theorem cacheGet_set_ne (c : Cache) (g : Nat) (m : UserMap) (g' : Nat) (h : g' ≠ g) :
    cacheGet (cacheSet c g m) g' = cacheGet c g' := by
  induction c with
  | nil => simp [cacheSet, cacheGet, Ne.symm h]
  | cons p rest ih =>
    obtain ⟨g₀, m₀⟩ := p
    by_cases h₀ : g₀ = g
    · subst h₀
      simp [cacheSet, cacheGet, Ne.symm h]
    · by_cases h₁ : g₀ = g'
      · subst h₁
        simp [cacheSet, cacheGet, h₀]
      · simp [cacheSet, cacheGet, h₀, h₁, ih]

theorem lookupWhisper_insert_self (c : Cache) (g u t : Nat) :
    lookupWhisper (cacheInsert c g u t) g u = some t := by
  unfold cacheInsert
  cases h : cacheGet c g <;>
    simp [lookupWhisper, cacheGet_set_self, umLookup_insert_self]

theorem lookupWhisper_insert_ne (c : Cache) (g u t g' u' : Nat)
    (h : ¬(g' = g ∧ u' = u)) :
    lookupWhisper (cacheInsert c g u t) g' u' = lookupWhisper c g' u' := by
  by_cases hg : g' = g
  · have hu : u' ≠ u := fun e => h ⟨hg, e⟩
    subst hg
    unfold cacheInsert
    cases hc : cacheGet c g' with
    | none =>
      simp [lookupWhisper, cacheGet_set_self, hc, umLookup_insert_ne _ _ _ _ hu,
        umLookup, Ne.symm hu]
    | some m =>
      simp [lookupWhisper, cacheGet_set_self, hc, umLookup_insert_ne _ _ _ _ hu]
  · unfold cacheInsert
    cases hc : cacheGet c g <;>
      simp [lookupWhisper, cacheGet_set_ne _ _ _ _ hg]

theorem lookupWhisper_pop_self (c : Cache) (g u : Nat) :
    lookupWhisper (cachePop c g u) g u = none := by
  unfold cachePop
  cases hc : cacheGet c g with
  | none => simp [lookupWhisper, hc]
  | some m => simp [lookupWhisper, cacheGet_set_self, umLookup_erase_self]

theorem lookupWhisper_pop_ne (c : Cache) (g u g' u' : Nat)
    (h : ¬(g' = g ∧ u' = u)) :
    lookupWhisper (cachePop c g u) g' u' = lookupWhisper c g' u' := by
  by_cases hg : g' = g
  · have hu : u' ≠ u := fun e => h ⟨hg, e⟩
    subst hg
    unfold cachePop
    cases hc : cacheGet c g' with
    | none => simp [hc]
    | some m =>
      simp [lookupWhisper, cacheGet_set_self, hc, umLookup_erase_ne _ _ _ hu]
  · unfold cachePop
    cases hc : cacheGet c g with
    | none => simp [hc]
    | some m => simp [lookupWhisper, cacheGet_set_ne _ _ _ _ hg]

/-! ### Store lemmas -/

theorem mem_openRecordsFor (s : Store) (g u : Nat) (r : WhisperRecord) :
    r ∈ openRecordsFor s g u ↔
      r ∈ s ∧ r.guild_id = g ∧ r.user_id = u ∧ r.is_open = true := by
  simp [openRecordsFor, List.mem_filter, and_assoc]

theorem mem_openByThread (s : Store) (g tid : Nat) (r : WhisperRecord) :
    r ∈ openByThread s g tid ↔
      r ∈ s ∧ r.guild_id = g ∧ r.thread_id = tid ∧ r.is_open = true := by
  simp [openByThread, List.mem_filter, and_assoc]

theorem mem_guildOpen (s : Store) (g : Nat) (r : WhisperRecord) :
    r ∈ guildOpen s g ↔ r ∈ s ∧ r.guild_id = g ∧ r.is_open = true := by
  simp [guildOpen, List.mem_filter, and_assoc]

theorem openRecordsFor_append (s s' : Store) (g u : Nat) :
    openRecordsFor (s ++ s') g u = openRecordsFor s g u ++ openRecordsFor s' g u := by
  simp [openRecordsFor, List.filter_append]

/-- A row that is still open after `markClosed` was untouched by it. -/
theorem mem_of_mem_markClosed_open (s : Store) (g tid now : Nat) (r : WhisperRecord)
    (hr : r ∈ markClosed s g tid now) (ho : r.is_open = true) :
    r ∈ s ∧ ¬(r.guild_id = g ∧ r.thread_id = tid) := by
  rcases List.mem_map.mp hr with ⟨r₀, hr₀, heq⟩
  by_cases hm : r₀.guild_id = g ∧ r₀.thread_id = tid
  · exfalso
    rw [← heq] at ho
    simp [markClosed, hm.1, hm.2] at ho
  · have : r = r₀ := by
      rw [← heq]
      rcases not_and_or.mp hm with h | h <;> simp [h]
    subst this
    exact ⟨hr₀, hm⟩

/-- Filtering after a row-wise rewrite that neither creates new matches nor
touches existing ones is the same as filtering the original rows. -/
theorem filter_map_eq_filter {α : Type} (p : α → Bool) (f : α → α) (s : List α)
    (h : ∀ a ∈ s, p (f a) = p a ∧ (p a = true → f a = a)) :
    List.filter p (s.map f) = List.filter p s := by
  induction s with
  | nil => rfl
  | cons a l ih =>
    have ha := h a (List.mem_cons_self _ _)
    have hl := ih (fun a h' => h a (List.mem_cons_of_mem _ h'))
    rw [List.map_cons, List.filter_cons, List.filter_cons, ha.1]
    by_cases hp : p a = true
    · simp [hp, ha.2 hp, hl]
    · have hp' : p a = false := by revert hp; cases p a <;> simp
      simp [hp', hl]

/-- A row-wise rewrite after which no row matches filters to the empty list. -/
theorem filter_map_eq_nil {α : Type} (p : α → Bool) (f : α → α) (s : List α)
    (h : ∀ a ∈ s, p (f a) = false) :
    List.filter p (s.map f) = [] := by
  induction s with
  | nil => rfl
  | cons a l ih =>
    rw [List.map_cons, List.filter_cons, h a (List.mem_cons_self _ _)]
    simp [ih (fun a h' => h a (List.mem_cons_of_mem _ h'))]

/-- `markClosed` leaves the open rows of any `(g', u')` pair untouched,
provided no open row of that pair matches `(g, tid)`. -/
theorem openRecordsFor_markClosed_ne (s : Store) (g tid now g' u' : Nat)
    (hdisj : ∀ r ∈ s, r.is_open = true → r.guild_id = g → r.thread_id = tid →
      ¬(r.guild_id = g' ∧ r.user_id = u')) :
    openRecordsFor (markClosed s g tid now) g' u' = openRecordsFor s g' u' := by
  unfold openRecordsFor markClosed
  apply filter_map_eq_filter
  intro r hr
  by_cases hm : (r.guild_id == g && r.thread_id == tid) = true
  · have hm' : r.guild_id = g ∧ r.thread_id = tid := by simpa using hm
    have hpredr : (r.guild_id == g' && r.user_id == u' && r.is_open) = false := by
      by_cases ho : r.is_open = true
      · have hne := hdisj r hr ho hm'.1 hm'.2
        rcases not_and_or.mp hne with h | h <;> simp [h]
      · have ho' : r.is_open = false := by revert ho; cases r.is_open <;> simp
        simp [ho']
    refine ⟨?_, ?_⟩
    · simp only [hm, if_true, hpredr]
      simp
    · intro hp
      rw [hp] at hpredr
      exact absurd hpredr (by simp)
  · have hm' : (r.guild_id == g && r.thread_id == tid) = false := by
      revert hm; cases (r.guild_id == g && r.thread_id == tid) <;> simp
    constructor
    · simp [hm']
    · intro _
      simp [hm']

/-- After `markClosed`, the pair `(g', u')` has no open rows at all, when
every open row of that pair matched `(g, tid)`. -/
theorem openRecordsFor_markClosed_self (s : Store) (g tid now g' u' : Nat)
    (hall : ∀ r ∈ s, r.is_open = true → r.guild_id = g' → r.user_id = u' →
      r.guild_id = g ∧ r.thread_id = tid) :
    openRecordsFor (markClosed s g tid now) g' u' = [] := by
  unfold openRecordsFor markClosed
  apply filter_map_eq_nil
  intro r hr
  by_cases hm : (r.guild_id == g && r.thread_id == tid) = true
  · simp only [hm, if_true]
    simp
  · have hm' : (r.guild_id == g && r.thread_id == tid) = false := by
      revert hm; cases (r.guild_id == g && r.thread_id == tid) <;> simp
    simp only [hm', Bool.false_eq_true, if_false]
    by_cases ho : r.is_open = true
    · by_cases hg : r.guild_id = g'
      · by_cases hu : r.user_id = u'
        · have := hall r hr ho hg hu
          exact absurd (by simp [this.1, this.2] : (r.guild_id == g && r.thread_id == tid) = true)
            (by simp [hm'])
        · simp [hu]
      · simp [hg]
    · have ho' : r.is_open = false := by revert ho; cases r.is_open <;> simp
      simp [ho']

/-! ### The registry / store invariant -/

/-- The registry mirrors the store: for every pair, the cached thread id is
exactly the thread id of the (first) open row of that pair. -/
def syncVal (s : Store) (c : Cache) : Prop :=
  ∀ g u, lookupWhisper c g u =
    (openRecordsFor s g u).head?.map (fun r => r.thread_id)

/-- At most one open row per `(guild_id, user_id)` pair (spec §3). -/
def atMostOneOpen (s : Store) : Prop :=
  ∀ r ∈ s, ∀ r' ∈ s, r.is_open = true → r'.is_open = true →
    r.guild_id = r'.guild_id → r.user_id = r'.user_id → r = r'

/-- Open rows of one guild that share a thread id belong to one user
(platform thread ids are not shared between users' threads). -/
def openThreadOwnerUnique (s : Store) : Prop :=
  ∀ r ∈ s, ∀ r' ∈ s, r.is_open = true → r'.is_open = true →
    r.guild_id = r'.guild_id → r.thread_id = r'.thread_id →
    r.user_id = r'.user_id

def WhisperInv (s : Store) (c : Cache) : Prop :=
  syncVal s c ∧ atMostOneOpen s ∧ openThreadOwnerUnique s

/-- A thread id freshly assigned by the platform: no open row has it. -/
def freshThread (s : Store) (t : Nat) : Prop :=
  ∀ r ∈ s, r.is_open = true → r.thread_id ≠ t

theorem head?_mem {α : Type} {l : List α} {a : α} (h : l.head? = some a) : a ∈ l := by
  cases l with
  | nil => simp at h
  | cons x xs =>
    simp at h
    simp [h]

/-- The open operation preserves the invariant, as long as the platform
hands out a thread id no open row already uses. -/
theorem whisperInv_create (env : OpenEnv) (g u : Nat) (s : Store) (c : Cache)
    (hinv : WhisperInv s c) (hf : freshThread s env.new_thread_id) :
    WhisperInv (create_whisper env g u s c).store (create_whisper env g u s c).cache := by
  by_cases he : env.whisper_enabled = false
  · simpa [create_whisper, he] using hinv
  cases hlk : lookupWhisper c g u with
  | some t => simpa [create_whisper, he, hlk] using hinv
  | none =>
    by_cases hch : env.channel_ok = false
    · simpa [create_whisper, he, hlk, hch] using hinv
    by_cases hth : env.thread_ok = false
    · simpa [create_whisper, he, hlk, hch, hth] using hinv
    by_cases hmsg : env.msg_ok = false
    · simpa [create_whisper, he, hlk, hch, hth, hmsg] using hinv
    by_cases hins : env.insert_ok = false
    · simpa [create_whisper, he, hlk, hch, hth, hmsg, hins] using hinv
    have hout :
        (create_whisper env g u s c).store
          = s ++ [⟨g, u, env.new_thread_id, env.now, none, true⟩]
        ∧ (create_whisper env g u s c).cache = cacheInsert c g u env.new_thread_id := by
      simp [create_whisper, he, hlk, hch, hth, hmsg, hins]
    obtain ⟨hinv₁, hinv₂, hinv₃⟩ := hinv
    have hemp : openRecordsFor s g u = [] := by
      have := hinv₁ g u
      rw [hlk] at this
      cases hor : openRecordsFor s g u with
      | nil => rfl
      | cons x xs => rw [hor] at this; simp at this
    rw [hout.1, hout.2]
    refine ⟨?_, ?_, ?_⟩
    · intro g' u'
      by_cases hp : g' = g ∧ u' = u
      · obtain ⟨hg, hu⟩ := hp
        subst hg; subst hu
        rw [lookupWhisper_insert_self, openRecordsFor_append, hemp]
        simp [openRecordsFor]
      · rw [lookupWhisper_insert_ne _ _ _ _ _ _ hp, openRecordsFor_append]
        have hnil : openRecordsFor [(⟨g, u, env.new_thread_id, env.now, none, true⟩ : WhisperRecord)] g' u' = [] := by
          rcases not_and_or.mp hp with h | h <;> simp [openRecordsFor, Ne.symm h]
        rw [hnil, List.append_nil]
        exact hinv₁ g' u'
    · intro r hr r' hr' ho ho' hg hu
      rcases List.mem_append.mp hr with hrs | hrn
      · rcases List.mem_append.mp hr' with hrs' | hrn'
        · exact hinv₂ r hrs r' hrs' ho ho' hg hu
        · exfalso
          have hrn' : r' = ⟨g, u, env.new_thread_id, env.now, none, true⟩ := by
            simpa using hrn'
          have : r ∈ openRecordsFor s g u := by
            rw [mem_openRecordsFor]
            refine ⟨hrs, ?_, ?_, ho⟩ <;> simp [hg, hu, hrn']
          rw [hemp] at this
          simp at this
      · rcases List.mem_append.mp hr' with hrs' | hrn'
        · exfalso
          have hrn : r = ⟨g, u, env.new_thread_id, env.now, none, true⟩ := by
            simpa using hrn
          have : r' ∈ openRecordsFor s g u := by
            rw [mem_openRecordsFor]
            refine ⟨hrs', ?_, ?_, ho'⟩ <;> simp [← hg, ← hu, hrn]
          rw [hemp] at this
          simp at this
        · have hrn : r = ⟨g, u, env.new_thread_id, env.now, none, true⟩ := by simpa using hrn
          have hrn' : r' = ⟨g, u, env.new_thread_id, env.now, none, true⟩ := by simpa using hrn'
          rw [hrn, hrn']
    · intro r hr r' hr' ho ho' hg ht
      rcases List.mem_append.mp hr with hrs | hrn
      · rcases List.mem_append.mp hr' with hrs' | hrn'
        · exact hinv₃ r hrs r' hrs' ho ho' hg ht
        · exfalso
          have hrn' : r' = ⟨g, u, env.new_thread_id, env.now, none, true⟩ := by
            simpa using hrn'
          have := hf r hrs ho
          rw [ht, hrn'] at this
          exact this rfl
      · rcases List.mem_append.mp hr' with hrs' | hrn'
        · exfalso
          have hrn : r = ⟨g, u, env.new_thread_id, env.now, none, true⟩ := by
            simpa using hrn
          have := hf r' hrs' ho'
          rw [← ht, hrn] at this
          exact this rfl
        · have hrn : r = ⟨g, u, env.new_thread_id, env.now, none, true⟩ := by simpa using hrn
          have hrn' : r' = ⟨g, u, env.new_thread_id, env.now, none, true⟩ := by simpa using hrn'
          rw [hrn, hrn']

/-- Core of the close transition: marking the fetched row's thread closed
and popping its owner from the registry keeps registry and store in sync. -/
theorem whisperInv_closeStep (g tid now : Nat) (w : WhisperRecord)
    (s : Store) (c : Cache) (hinv : WhisperInv s c)
    (hw : (openByThread s g tid).head? = some w) :
    WhisperInv (markClosed s g tid now) (cachePop c g w.user_id) := by
  obtain ⟨hinv₁, hinv₂, hinv₃⟩ := hinv
  have hwmem := (mem_openByThread s g tid w).mp (head?_mem hw)
  obtain ⟨hws, hwg, hwt, hwo⟩ := hwmem
  have hopen_preserved : ∀ r ∈ markClosed s g tid now, r.is_open = true → r ∈ s := by
    intro r hr ho
    exact (mem_of_mem_markClosed_open s g tid now r hr ho).1
  refine ⟨?_, ?_, ?_⟩
  · intro g' u'
    by_cases hp : g' = g ∧ u' = w.user_id
    · obtain ⟨hg, hu⟩ := hp
      subst hg; subst hu
      rw [lookupWhisper_pop_self]
      have hall : ∀ r ∈ s, r.is_open = true → r.guild_id = g' → r.user_id = w.user_id →
          r.guild_id = g' ∧ r.thread_id = tid := by
        intro r hr ho hg hu
        have := hinv₂ r hr w hws ho hwo (hg.trans hwg.symm) hu
        rw [this]
        exact ⟨hwg, hwt⟩
      rw [openRecordsFor_markClosed_self s g' tid now g' w.user_id hall]
      rfl
    · rw [lookupWhisper_pop_ne _ _ _ _ _ hp]
      have hdisj : ∀ r ∈ s, r.is_open = true → r.guild_id = g → r.thread_id = tid →
          ¬(r.guild_id = g' ∧ r.user_id = u') := by
        intro r hr ho hg ht hcontra
        have huser : r.user_id = w.user_id :=
          hinv₃ r hr w hws ho hwo (hg.trans hwg.symm) (ht.trans hwt.symm)
        exact hp ⟨hcontra.1 ▸ hg, hcontra.2 ▸ huser⟩
      rw [openRecordsFor_markClosed_ne s g tid now g' u' hdisj]
      exact hinv₁ g' u'
  · intro r hr r' hr' ho ho' hg hu
    have hr₁ := mem_of_mem_markClosed_open s g tid now r hr ho
    have hr₂ := mem_of_mem_markClosed_open s g tid now r' hr' ho'
    exact hinv₂ r hr₁.1 r' hr₂.1 ho ho' hg hu
  · intro r hr r' hr' ho ho' hg ht
    have hr₁ := mem_of_mem_markClosed_open s g tid now r hr ho
    have hr₂ := mem_of_mem_markClosed_open s g tid now r' hr' ho'
    exact hinv₃ r hr₁.1 r' hr₂.1 ho ho' hg ht

/-- The close operation preserves the invariant in every branch. -/
theorem whisperInv_close (env : CloseEnv) (g tid caller : Nat) (isAdmin : Bool)
    (s : Store) (c : Cache) (hinv : WhisperInv s c) :
    WhisperInv (close_whisper env g tid caller isAdmin s c).store
      (close_whisper env g tid caller isAdmin s c).cache := by
  cases hw : (openByThread s g tid).head? with
  | none => simpa [close_whisper, hw] using hinv
  | some w =>
    by_cases hperm : (isAdmin || caller == w.user_id) = true
    · by_cases hsend : env.send_ok = false
      · simpa [close_whisper, hw, hperm, hsend] using hinv
      by_cases hupd : env.update_ok = false
      · simpa [close_whisper, hw, hperm, hsend, hupd] using hinv
      by_cases hedit : env.edit_ok = false
      · have hout :
            (close_whisper env g tid caller isAdmin s c).store = markClosed s g tid env.now
            ∧ (close_whisper env g tid caller isAdmin s c).cache = cachePop c g w.user_id := by
          simp [close_whisper, hw, hperm, hsend, hupd, hedit]
        rw [hout.1, hout.2]
        exact whisperInv_closeStep g tid env.now w s c ⟨hinv.1, hinv.2.1, hinv.2.2⟩ hw
      · have hout :
            (close_whisper env g tid caller isAdmin s c).store = markClosed s g tid env.now
            ∧ (close_whisper env g tid caller isAdmin s c).cache = cachePop c g w.user_id := by
          simp [close_whisper, hw, hperm, hsend, hupd, hedit]
        rw [hout.1, hout.2]
        exact whisperInv_closeStep g tid env.now w s c ⟨hinv.1, hinv.2.1, hinv.2.2⟩ hw
    · simpa [close_whisper, hw, hperm] using hinv

/-! ### Rebuild (`cog_load`) lemmas -/

/-- The dictionary comprehension `{w.user_id: w.thread_id for w in rows}`
built from one guild's open rows. -/
def guildDict (s : Store) (g : Nat) : UserMap :=
  (guildOpen s g).foldl (fun m r => umInsert m r.user_id r.thread_id) []

theorem loadGuild_eq (s : Store) (c : Cache) (g : Nat) :
    loadGuild s c g =
      if (guildOpen s g).isEmpty then c else cacheSet c g (guildDict s g) := rfl

theorem lookupWhisper_set_self (c : Cache) (g : Nat) (m : UserMap) (u : Nat) :
    lookupWhisper (cacheSet c g m) g u = umLookup m u := by
  simp [lookupWhisper, cacheGet_set_self]

theorem lookupWhisper_set_ne (c : Cache) (g : Nat) (m : UserMap) (g' u : Nat)
    (h : g' ≠ g) :
    lookupWhisper (cacheSet c g m) g' u = lookupWhisper c g' u := by
  simp [lookupWhisper, cacheGet_set_ne _ _ _ _ h]

theorem umLookup_foldl_not_mem (ws : List WhisperRecord) (m : UserMap) (u : Nat)
    (h : ∀ r ∈ ws, r.user_id ≠ u) :
    umLookup (ws.foldl (fun m r => umInsert m r.user_id r.thread_id) m) u
      = umLookup m u := by
  induction ws generalizing m with
  | nil => rfl
  | cons r rest ih =>
    rw [List.foldl_cons, ih _ (fun r h' => h r (List.mem_cons_of_mem _ h'))]
    exact umLookup_insert_ne _ _ _ _ (Ne.symm (h r (List.mem_cons_self _ _)))

theorem umLookup_foldl_mem (ws : List WhisperRecord) (m : UserMap) (u t : Nat)
    (hall : ∀ r ∈ ws, r.user_id = u → r.thread_id = t)
    (hex : ∃ r ∈ ws, r.user_id = u) :
    umLookup (ws.foldl (fun m r => umInsert m r.user_id r.thread_id) m) u
      = some t := by
  induction ws generalizing m with
  | nil =>
    exfalso
    obtain ⟨r, hr, _⟩ := hex
    simp at hr
  | cons r rest ih =>
    rw [List.foldl_cons]
    by_cases hrest : ∃ r' ∈ rest, r'.user_id = u
    · exact ih _ (fun r' h' hu => hall r' (List.mem_cons_of_mem _ h') hu) hrest
    · have hru : r.user_id = u := by
        obtain ⟨r', hr', hu'⟩ := hex
        rcases List.mem_cons.mp hr' with h | h
        · rw [← h]; exact hu'
        · exact absurd ⟨r', h, hu'⟩ hrest
      rw [umLookup_foldl_not_mem rest _ u
        (fun r'' h'' e => hrest ⟨r'', h'', e⟩), hru,
        hall r (List.mem_cons_self _ _) hru, umLookup_insert_self]

/-- `cog_load` never touches the registry entry of a guild outside the
iterated guild list. -/
theorem cog_load_lookup_not_mem (guilds : List Nat) (s : Store) (c : Cache)
    (g u : Nat) (h : g ∉ guilds) :
    lookupWhisper (cog_load guilds s c) g u = lookupWhisper c g u := by
  induction guilds generalizing c with
  | nil => rfl
  | cons g' rest ih =>
    have hg' : g ≠ g' := fun e => h (e ▸ List.mem_cons_self _ _)
    have hrest : g ∉ rest := fun e => h (List.mem_cons_of_mem _ e)
    show lookupWhisper (cog_load rest s (loadGuild s c g')) g u = _
    rw [ih _ hrest, loadGuild_eq]
    by_cases he : (guildOpen s g').isEmpty
    · simp [he]
    · simp only [he, if_false, Bool.false_eq_true]
      exact lookupWhisper_set_ne _ _ _ _ _ hg'

/-- A guild with no open rows is skipped by every iteration of `cog_load`,
so its registry entry is whatever the initial cache held. -/
theorem cog_load_lookup_empty (guilds : List Nat) (s : Store) (c : Cache)
    (g u : Nat) (h : guildOpen s g = []) :
    lookupWhisper (cog_load guilds s c) g u = lookupWhisper c g u := by
  induction guilds generalizing c with
  | nil => rfl
  | cons g' rest ih =>
    show lookupWhisper (cog_load rest s (loadGuild s c g')) g u = _
    rw [ih]
    rw [loadGuild_eq]
    by_cases hg' : g' = g
    · subst hg'
      simp [h]
    · by_cases he : (guildOpen s g').isEmpty
      · simp [he]
      · simp only [he, if_false, Bool.false_eq_true]
        exact lookupWhisper_set_ne _ _ _ _ _ (Ne.symm hg')

/-- A guild with open rows that appears in the guild list gets exactly the
dictionary built from its open rows. -/
theorem cog_load_lookup_mem (guilds : List Nat) (s : Store) (c : Cache)
    (g u : Nat) (hmem : g ∈ guilds) (hne : guildOpen s g ≠ []) :
    lookupWhisper (cog_load guilds s c) g u = umLookup (guildDict s g) u := by
  induction guilds generalizing c with
  | nil => simp at hmem
  | cons g' rest ih =>
    show lookupWhisper (cog_load rest s (loadGuild s c g')) g u = _
    by_cases hmem' : g ∈ rest
    · exact ih _ hmem'
    · have hg' : g' = g := by
        rcases List.mem_cons.mp hmem with h | h
        · exact h.symm
        · exact absurd h hmem'
      subst hg'
      rw [cog_load_lookup_not_mem rest s _ g' u hmem', loadGuild_eq]
      have he : (guildOpen s g').isEmpty = false := by
        cases hgo : guildOpen s g' with
        | nil => exact absurd hgo hne
        | cons x xs => rfl
      simp only [he, Bool.false_eq_true, if_false]
      exact lookupWhisper_set_self _ _ _ _

/-- Rebuilding from the empty cache puts the registry in sync with the
store, provided the store has at most one open row per pair and every open
row's guild is among the iterated guilds. -/
theorem cog_load_syncVal (guilds : List Nat) (s : Store)
    (h1 : atMostOneOpen s)
    (hg : ∀ r ∈ s, r.is_open = true → r.guild_id ∈ guilds) :
    syncVal s (cog_load guilds s []) := by
  intro g u
  cases hgo : guildOpen s g with
  | nil =>
    rw [cog_load_lookup_empty guilds s [] g u hgo]
    have hor : openRecordsFor s g u = [] := by
      cases h : openRecordsFor s g u with
      | nil => rfl
      | cons x xs =>
        exfalso
        have hx := (mem_openRecordsFor s g u x).mp (h ▸ List.mem_cons_self x xs)
        have : x ∈ guildOpen s g :=
          (mem_guildOpen s g x).mpr ⟨hx.1, hx.2.1, hx.2.2.2⟩
        rw [hgo] at this
        simp at this
    rw [hor]
    rfl
  | cons w ws =>
    have hwg := (mem_guildOpen s g w).mp (hgo ▸ List.mem_cons_self w ws)
    have hmem : g ∈ guilds := hwg.2.1 ▸ hg w hwg.1 hwg.2.2
    rw [cog_load_lookup_mem guilds s [] g u hmem (by rw [hgo]; simp)]
    cases hor : openRecordsFor s g u with
    | nil =>
      rw [guildDict, umLookup_foldl_not_mem]
      · rfl
      · intro r hr hu
        have hrp := (mem_guildOpen s g r).mp hr
        have : r ∈ openRecordsFor s g u :=
          (mem_openRecordsFor s g u r).mpr ⟨hrp.1, hrp.2.1, hu, hrp.2.2⟩
        rw [hor] at this
        simp at this
    | cons r₀ rs =>
      have hr₀ := (mem_openRecordsFor s g u r₀).mp (hor ▸ List.mem_cons_self r₀ rs)
      rw [guildDict, umLookup_foldl_mem (guildOpen s g) [] u r₀.thread_id]
      · rfl
      · intro r hr hu
        have hrp := (mem_guildOpen s g r).mp hr
        have heq : r = r₀ :=
          h1 r hrp.1 r₀ hr₀.1 hrp.2.2 hr₀.2.2.2
            (hrp.2.1.trans hr₀.2.1.symm) (hu.trans hr₀.2.2.1.symm)
        rw [heq]
      · refine ⟨r₀, ?_, hr₀.2.2.1⟩
        exact (mem_guildOpen s g r₀).mpr ⟨hr₀.1, hr₀.2.1, hr₀.2.2.2⟩

/-- Full invariant immediately after startup rebuild. -/
theorem whisperInv_boot (guilds : List Nat) (s : Store)
    (h1 : atMostOneOpen s) (h2 : openThreadOwnerUnique s)
    (hg : ∀ r ∈ s, r.is_open = true → r.guild_id ∈ guilds) :
    WhisperInv s (cog_load guilds s []) :=
  ⟨cog_load_syncVal guilds s h1 hg, h1, h2⟩

/-! ### Reachable states -/

/-- States of the pair (store, registry): startup rebuild from a snapshot
whose open rows satisfy the documented store invariants and belong to
guilds the bot is connected to, followed by any sequence of open and close
command invocations, each with arbitrary success or failure of its
platform and store calls; freshly created threads get ids no open row
already uses. -/
inductive Reachable : Store → Cache → Prop where
  | boot (guilds : List Nat) (s : Store)
      (h1 : atMostOneOpen s) (h2 : openThreadOwnerUnique s)
      (hg : ∀ r ∈ s, r.is_open = true → r.guild_id ∈ guilds) :
      Reachable s (cog_load guilds s [])
  | stepOpen (env : OpenEnv) (g u : Nat) (s : Store) (c : Cache)
      (h : Reachable s c) (hf : freshThread s env.new_thread_id) :
      Reachable (create_whisper env g u s c).store (create_whisper env g u s c).cache
  | stepClose (env : CloseEnv) (g tid caller : Nat) (isAdmin : Bool)
      (s : Store) (c : Cache) (h : Reachable s c) :
      Reachable (close_whisper env g tid caller isAdmin s c).store
        (close_whisper env g tid caller isAdmin s c).cache

/-- The invariant holds in every reachable state. -/
theorem whisperInv_reachable {s : Store} {c : Cache} (h : Reachable s c) :
    WhisperInv s c := by
  induction h with
  | boot guilds s h1 h2 hg => exact whisperInv_boot guilds s h1 h2 hg
  | stepOpen env g u s c h hf ih => exact whisperInv_create env g u s c ih hf
  | stepClose env g tid caller isAdmin s c h ih =>
    exact whisperInv_close env g tid caller isAdmin s c ih

/-! ### Moderation cog (`cogs/moderation.py`)

Caller permissions, configuration and call outcomes for one invocation of
a moderation command.  Replies sent to the invoker are modelled as
infallible; `_send_user_dm` swallows its own failures and only influences
the reply embed, so it does not appear. -/

structure ModEnv where
  /-- `interaction.guild` is set and the caller is a `Member`. -/
  in_guild : Bool
  /-- `caller.guild_permissions.administrator` -/
  admin : Bool
  /-- `caller.guild_permissions.manage_guild` -/
  manage_guild : Bool
  /-- `caller.guild_permissions.kick_members` -/
  kick_members : Bool
  /-- `caller.guild_permissions.ban_members` -/
  ban_members : Bool
  /-- the `config.get(guild, "moderation_enabled", True)` read succeeds -/
  config_ok : Bool
  /-- the value that read returns -/
  moderation_enabled : Bool
  /-- `guild.me.guild_permissions.kick_members` -/
  bot_can_kick : Bool
  /-- the target's top role is below the bot's -/
  hierarchy_ok : Bool
  /-- `member.kick` raises `discord.Forbidden` -/
  kick_forbidden : Bool
  /-- `member.kick` raises some other exception -/
  kick_fails : Bool
  /-- `db.log_moderation_action` raises -/
  log_fails : Bool
deriving DecidableEq

/-- `ModerationCog._check_mod_permissions`.  `.ok b` is the helper's return
value; `.error ()` models an exception escaping it (the `config.get` await
raised).  Administrator / manage-guild callers pass before the
configuration flag is ever read. -/
def check_mod_permissions (env : ModEnv) : Except Unit Bool :=
  if env.in_guild = false then .ok false
  else if (env.admin || env.manage_guild) = true then .ok true
  else if env.config_ok = false then .error ()
  else if env.moderation_enabled = false then .ok false
  else .ok (env.kick_members || env.ban_members)

/-- What one invocation of `/kick` ends as, seen from the dispatcher. -/
inductive KickOutcome where
  | noPermission
  | botNoPermission
  | roleHierarchy
  | forbiddenReply
  | unexpectedErrorReply
  | kicked
  | uncaught
deriving DecidableEq

/-- `ModerationCog.kick`.  The permission check, the bot-permission check
and the role-hierarchy check run before the `try` block; inside it,
`discord.Forbidden` from the kick call gets its own reply, any other
exception (from the kick or the database log) the generic one.  An
exception raised by the pre-`try` permission check leaves the handler as
`uncaught`. -/
def kickRun (env : ModEnv) : KickOutcome :=
  match check_mod_permissions env with
  | .error _ => .uncaught
  | .ok false => .noPermission
  | .ok true =>
    if env.bot_can_kick = false then .botNoPermission
    else if env.hierarchy_ok = false then .roleHierarchy
    else if env.kick_forbidden = true then .forbiddenReply
    else if env.kick_fails = true then .unexpectedErrorReply
    else if env.log_fails = true then .unexpectedErrorReply
    else .kicked

/-! ### Claims -/

/-- C1: invoking `/whisper` while an open whisper row already exists for
that user in that server (with the registry in sync with the store, as in
every reachable state, and the feature enabled) returns the existing
thread reference, inserts no second store row, touches neither store nor
registry, and performs no durable side effect — at most one open thread
per user per server is maintained. -/
theorem C1_open_idempotent (env : OpenEnv) (g u : Nat) (s : Store) (c : Cache)
    (r : WhisperRecord) (hinv : WhisperInv s c)
    (hr : r ∈ s) (hg : r.guild_id = g) (hu : r.user_id = u) (ho : r.is_open = true)
    (hen : env.whisper_enabled = true) :
    (create_whisper env g u s c).result = .existingThread r.thread_id
    ∧ (create_whisper env g u s c).store = s
    ∧ (create_whisper env g u s c).cache = c
    ∧ (create_whisper env g u s c).trace = [] := by
  have hlk : lookupWhisper c g u = some r.thread_id := by
    rw [hinv.1 g u]
    cases hor : openRecordsFor s g u with
    | nil =>
      exfalso
      have : r ∈ openRecordsFor s g u :=
        (mem_openRecordsFor s g u r).mpr ⟨hr, hg, hu, ho⟩
      rw [hor] at this
      simp at this
    | cons r₀ rs =>
      have hr₀ := (mem_openRecordsFor s g u r₀).mp (hor ▸ List.mem_cons_self r₀ rs)
      have : r₀ = r :=
        hinv.2.1 r₀ hr₀.1 r hr hr₀.2.2.2 ho (hr₀.2.1.trans hg.symm)
          (hr₀.2.2.1.trans hu.symm)
      simp [this]
  simp [create_whisper, hen, hlk]

theorem C1_witness :
    ((⟨1, 2, 5, 0, none, true⟩ : WhisperRecord) ∈ ([⟨1, 2, 5, 0, none, true⟩] : Store))
    ∧ (create_whisper ⟨true, true, true, true, true, 9, 3⟩ 1 2
        [⟨1, 2, 5, 0, none, true⟩]
        (cog_load [1] [⟨1, 2, 5, 0, none, true⟩] [])).result = .existingThread 5 :=
  ⟨List.mem_cons_self _ _,
    (C1_open_idempotent ⟨true, true, true, true, true, 9, 3⟩ 1 2
      [⟨1, 2, 5, 0, none, true⟩] (cog_load [1] [⟨1, 2, 5, 0, none, true⟩] [])
      ⟨1, 2, 5, 0, none, true⟩
      (whisperInv_boot [1] [⟨1, 2, 5, 0, none, true⟩]
        (by intro r hr r' hr' _ _ _ _; simp at hr hr'; rw [hr, hr'])
        (by intro r hr r' hr' _ _ _ _; simp at hr hr'; rw [hr, hr'])
        (by intro r hr _; simp at hr; simp [hr]))
      (List.mem_cons_self _ _) rfl rfl rfl rfl).1⟩

/-- C2: in every reachable state of the system — a startup rebuild from a
store snapshot satisfying the documented store invariants, followed by any
sequence of open and close invocations with arbitrary success or failure
of their platform and store calls — the registry has an entry for
`(g, u)` exactly when the store holds a row for that pair with
`is_open = true`. -/
theorem C2_registry_iff_store {s : Store} {c : Cache} (h : Reachable s c)
    (g u : Nat) :
    (lookupWhisper c g u).isSome = true ↔
      ∃ r ∈ s, r.guild_id = g ∧ r.user_id = u ∧ r.is_open = true := by
  have hs := (whisperInv_reachable h).1 g u
  constructor
  · intro hx
    rw [hs] at hx
    cases hor : openRecordsFor s g u with
    | nil => rw [hor] at hx; simp at hx
    | cons r rs =>
      have hr := (mem_openRecordsFor s g u r).mp (hor ▸ List.mem_cons_self r rs)
      exact ⟨r, hr.1, hr.2⟩
  · rintro ⟨r, hr, hg, hu, ho⟩
    rw [hs]
    have hmem : r ∈ openRecordsFor s g u :=
      (mem_openRecordsFor s g u r).mpr ⟨hr, hg, hu, ho⟩
    cases hor : openRecordsFor s g u with
    | nil => rw [hor] at hmem; simp at hmem
    | cons r₀ rs => simp [hor]

theorem C2_witness :
    (lookupWhisper (cog_load [1] [⟨1, 2, 5, 0, none, true⟩] []) 1 2).isSome = true ↔
      ∃ r ∈ ([⟨1, 2, 5, 0, none, true⟩] : Store),
        r.guild_id = 1 ∧ r.user_id = 2 ∧ r.is_open = true :=
  C2_registry_iff_store
    (Reachable.boot [1] [⟨1, 2, 5, 0, none, true⟩]
      (by intro r hr r' hr' _ _ _ _; simp at hr hr'; rw [hr, hr'])
      (by intro r hr r' hr' _ _ _ _; simp at hr hr'; rw [hr, hr'])
      (by intro r hr _; simp at hr; simp [hr]))
    1 2

/-- C3 fails on the code: `cog_load` does not clear the cache.  Rebuilding
over a cache that already holds an entry for guild 5 / user 7, from a
store snapshot with no rows at all (so no open row for that pair), leaves
the stale entry in place: `lookup` still returns thread 99 although the
claim requires it to return nothing. -/
theorem C3_counterexample :
    lookupWhisper (cog_load [5] ([] : Store) [(5, [(7, 99)])]) 5 7 = some 99
    ∧ openRecordsFor ([] : Store) 5 7 = [] := ⟨rfl, rfl⟩

/-- C3 amended: `cog_load` starts from the empty registry the constructor
installed, so for a rebuild from the empty cache — with at most one open
row per pair in the snapshot and every open row's guild among the bot's
guilds — `lookup` afterwards returns exactly the thread id of the open row
of that pair, or nothing if there is none. -/
theorem C3_rebuild_lookup (guilds : List Nat) (s : Store)
    (h1 : atMostOneOpen s)
    (hg : ∀ r ∈ s, r.is_open = true → r.guild_id ∈ guilds) (g u : Nat) :
    lookupWhisper (cog_load guilds s []) g u =
      (openRecordsFor s g u).head?.map (fun r => r.thread_id) :=
  cog_load_syncVal guilds s h1 hg g u

theorem C3_witness :
    lookupWhisper (cog_load [1] [⟨1, 2, 5, 0, none, true⟩] []) 1 2 = some 5
    ∧ lookupWhisper (cog_load [1] [⟨1, 2, 5, 0, none, true⟩] []) 1 3 = none :=
  ⟨(C3_rebuild_lookup [1] [⟨1, 2, 5, 0, none, true⟩]
      (by intro r hr r' hr' _ _ _ _; simp at hr hr'; rw [hr, hr'])
      (by intro r hr _; simp at hr; simp [hr]) 1 2).trans (by rfl),
   (C3_rebuild_lookup [1] [⟨1, 2, 5, 0, none, true⟩]
      (by intro r hr r' hr' _ _ _ _; simp at hr hr'; rw [hr, hr'])
      (by intro r hr _; simp at hr; simp [hr]) 1 3).trans (by rfl)⟩

/-- C4: a successful close — open row found for the thread, caller
authorized, every call succeeding — performs exactly, and in this order:
the closing metadata message, the store update setting `is_open = false`
and `closed_at` to the close time, the registry removal for the owning
user, and the archive-and-lock of the thread; afterwards `lookup` for the
owning user returns nothing. -/
theorem C4_close_effects (env : CloseEnv) (g tid caller : Nat) (isAdmin : Bool)
    (s : Store) (c : Cache) (w : WhisperRecord)
    (hw : (openByThread s g tid).head? = some w)
    (hperm : (isAdmin || caller == w.user_id) = true)
    (hsend : env.send_ok = true) (hupd : env.update_ok = true)
    (hedit : env.edit_ok = true) :
    (close_whisper env g tid caller isAdmin s c).result = .closed
    ∧ (close_whisper env g tid caller isAdmin s c).trace =
        [.postCloseMsg tid, .storeMarkClosed g tid env.now,
         .registryRemove g w.user_id, .archiveLock tid]
    ∧ (∀ r ∈ (close_whisper env g tid caller isAdmin s c).store,
        r.guild_id = g → r.thread_id = tid →
        r.is_open = false ∧ r.closed_at = some env.now)
    ∧ lookupWhisper (close_whisper env g tid caller isAdmin s c).cache
        g w.user_id = none := by
  have hout :
      close_whisper env g tid caller isAdmin s c =
        ⟨.closed, markClosed s g tid env.now, cachePop c g w.user_id,
          [.postCloseMsg tid, .storeMarkClosed g tid env.now,
           .registryRemove g w.user_id, .archiveLock tid]⟩ := by
    simp [close_whisper, hw, hperm, hsend, hupd, hedit]
  rw [hout]
  refine ⟨rfl, rfl, ?_, lookupWhisper_pop_self c g w.user_id⟩
  intro r hr hg ht
  rcases List.mem_map.mp hr with ⟨r₀, hr₀, heq⟩
  by_cases hm : (r₀.guild_id == g && r₀.thread_id == tid) = true
  · rw [← heq]
    simp [hm]
  · exfalso
    have hre : r = r₀ := by rw [← heq]; simp [hm]
    rw [hre] at hg ht
    exact hm (by simp [hg, ht])

theorem C4_witness :
    (openByThread [⟨1, 2, 5, 0, none, true⟩] 1 5).head? = some ⟨1, 2, 5, 0, none, true⟩
    ∧ (close_whisper ⟨true, true, true, 8⟩ 1 5 9 true
        [⟨1, 2, 5, 0, none, true⟩] [(1, [(2, 5)])]).result = .closed
    ∧ lookupWhisper (close_whisper ⟨true, true, true, 8⟩ 1 5 9 true
        [⟨1, 2, 5, 0, none, true⟩] [(1, [(2, 5)])]).cache 1 2 = none :=
  ⟨rfl,
    (C4_close_effects ⟨true, true, true, 8⟩ 1 5 9 true
      [⟨1, 2, 5, 0, none, true⟩] [(1, [(2, 5)])] ⟨1, 2, 5, 0, none, true⟩
      rfl rfl rfl rfl rfl).1,
    (C4_close_effects ⟨true, true, true, 8⟩ 1 5 9 true
      [⟨1, 2, 5, 0, none, true⟩] [(1, [(2, 5)])] ⟨1, 2, 5, 0, none, true⟩
      rfl rfl rfl rfl rfl).2.2.2⟩

/-- C5: opening for a user with no open row (registry in sync), feature
enabled and every platform and store call succeeding, appends exactly one
row `{g, u, new thread id, now, closed_at absent, is_open = true}` to the
store, reports the creation, and an immediately following `lookup` for
`(g, u)` returns the new thread id. -/
theorem C5_open_creates (env : OpenEnv) (g u : Nat) (s : Store) (c : Cache)
    (hsync : syncVal s c) (hnone : openRecordsFor s g u = [])
    (hen : env.whisper_enabled = true) (hch : env.channel_ok = true)
    (hth : env.thread_ok = true) (hmsg : env.msg_ok = true)
    (hins : env.insert_ok = true) :
    (create_whisper env g u s c).store
      = s ++ [⟨g, u, env.new_thread_id, env.now, none, true⟩]
    ∧ (create_whisper env g u s c).result = .created env.new_thread_id
    ∧ lookupWhisper (create_whisper env g u s c).cache g u
        = some env.new_thread_id := by
  have hlk : lookupWhisper c g u = none := by
    rw [hsync g u, hnone]
    rfl
  have hout :
      create_whisper env g u s c =
        ⟨.created env.new_thread_id,
         s ++ [⟨g, u, env.new_thread_id, env.now, none, true⟩],
         cacheInsert c g u env.new_thread_id,
         [.setupChannel g, .createThread g env.new_thread_id,
          .postInitialMsg env.new_thread_id,
          .storeInsert g u env.new_thread_id env.now,
          .registryAdd g u env.new_thread_id]⟩ := by
    simp [create_whisper, hen, hch, hth, hmsg, hins, hlk]
  rw [hout]
  exact ⟨rfl, rfl, lookupWhisper_insert_self c g u env.new_thread_id⟩

theorem C5_witness :
    openRecordsFor ([] : Store) 1 2 = []
    ∧ (create_whisper ⟨true, true, true, true, true, 9, 3⟩ 1 2 [] []).store
        = [⟨1, 2, 9, 3, none, true⟩]
    ∧ lookupWhisper
        (create_whisper ⟨true, true, true, true, true, 9, 3⟩ 1 2 [] []).cache 1 2
        = some 9 :=
  ⟨rfl,
    (C5_open_creates ⟨true, true, true, true, true, 9, 3⟩ 1 2 [] []
      (by intro g u; rfl) rfl rfl rfl rfl rfl rfl).1,
    (C5_open_creates ⟨true, true, true, true, true, 9, 3⟩ 1 2 [] []
      (by intro g u; rfl) rfl rfl rfl rfl rfl rfl).2.2⟩

/-- C6: a close invoked on an open whisper thread by a caller who is
neither an administrator nor the thread's owning user is refused with the
permission error and has no side effects: store, registry and platform
thread are untouched. -/
theorem C6_close_refused_unauthorized (env : CloseEnv) (g tid caller : Nat)
    (isAdmin : Bool) (s : Store) (c : Cache) (w : WhisperRecord)
    (hw : (openByThread s g tid).head? = some w)
    (hadmin : isAdmin = false) (howner : caller ≠ w.user_id) :
    (close_whisper env g tid caller isAdmin s c).result = .noPermission
    ∧ (close_whisper env g tid caller isAdmin s c).store = s
    ∧ (close_whisper env g tid caller isAdmin s c).cache = c
    ∧ (close_whisper env g tid caller isAdmin s c).trace = [] := by
  have hperm : (isAdmin || caller == w.user_id) = false := by
    simp [hadmin, howner]
  simp [close_whisper, hw, hperm]

theorem C6_witness :
    (openByThread [⟨1, 2, 5, 0, none, true⟩] 1 5).head? = some ⟨1, 2, 5, 0, none, true⟩
    ∧ (close_whisper ⟨true, true, true, 8⟩ 1 5 9 false
        [⟨1, 2, 5, 0, none, true⟩] [(1, [(2, 5)])]).result = .noPermission
    ∧ (close_whisper ⟨true, true, true, 8⟩ 1 5 9 false
        [⟨1, 2, 5, 0, none, true⟩] [(1, [(2, 5)])]).store = [⟨1, 2, 5, 0, none, true⟩] :=
  ⟨rfl,
    (C6_close_refused_unauthorized ⟨true, true, true, 8⟩ 1 5 9 false
      [⟨1, 2, 5, 0, none, true⟩] [(1, [(2, 5)])] ⟨1, 2, 5, 0, none, true⟩
      rfl rfl (by decide)).1,
    (C6_close_refused_unauthorized ⟨true, true, true, 8⟩ 1 5 9 false
      [⟨1, 2, 5, 0, none, true⟩] [(1, [(2, 5)])] ⟨1, 2, 5, 0, none, true⟩
      rfl rfl (by decide)).2.1⟩

/-- C7: a close invoked on a thread with no matching open row in the store
is refused with the "not a whisper thread" error and performs no store
write, no registry mutation and no platform-thread change. -/
theorem C7_close_not_whisper (env : CloseEnv) (g tid caller : Nat)
    (isAdmin : Bool) (s : Store) (c : Cache)
    (hw : openByThread s g tid = []) :
    (close_whisper env g tid caller isAdmin s c).result = .notWhisper
    ∧ (close_whisper env g tid caller isAdmin s c).store = s
    ∧ (close_whisper env g tid caller isAdmin s c).cache = c
    ∧ (close_whisper env g tid caller isAdmin s c).trace = [] := by
  have hw' : (openByThread s g tid).head? = none := by rw [hw]; rfl
  simp [close_whisper, hw']

theorem C7_witness :
    openByThread [⟨1, 2, 5, 0, some 4, false⟩] 1 5 = []
    ∧ (close_whisper ⟨true, true, true, 8⟩ 1 5 9 true
        [⟨1, 2, 5, 0, some 4, false⟩] []).result = .notWhisper
    ∧ (close_whisper ⟨true, true, true, 8⟩ 1 5 9 true
        [⟨1, 2, 5, 0, some 4, false⟩] []).store = [⟨1, 2, 5, 0, some 4, false⟩] :=
  ⟨rfl,
    (C7_close_not_whisper ⟨true, true, true, 8⟩ 1 5 9 true
      [⟨1, 2, 5, 0, some 4, false⟩] [] rfl).1,
    (C7_close_not_whisper ⟨true, true, true, 8⟩ 1 5 9 true
      [⟨1, 2, 5, 0, some 4, false⟩] [] rfl).2.1⟩

/-- C8: in both operations the registry is written only after the store
write succeeded.  If the store write fails, the registry (and the store)
are untouched: the open operation never reports a creation and — when the
failure happens at the insert itself — replies with the creation-failure
error; the close operation never reports a successful close and — when
the update itself was reached and failed — replies with the caught-error
message. -/
theorem C8_store_first (env : OpenEnv) (cenv : CloseEnv)
    (g u g₂ tid caller : Nat) (isAdmin : Bool)
    (s s₂ : Store) (c c₂ : Cache) :
    (env.insert_ok = false →
      (create_whisper env g u s c).cache = c
      ∧ (create_whisper env g u s c).store = s
      ∧ ∀ t, (create_whisper env g u s c).result ≠ .created t)
    ∧ (env.insert_ok = false → env.whisper_enabled = true →
        lookupWhisper c g u = none → env.channel_ok = true →
        env.thread_ok = true → env.msg_ok = true →
        (create_whisper env g u s c).result = .threadCreateFailed)
    ∧ (cenv.update_ok = false →
      (close_whisper cenv g₂ tid caller isAdmin s₂ c₂).cache = c₂
      ∧ (close_whisper cenv g₂ tid caller isAdmin s₂ c₂).store = s₂
      ∧ (close_whisper cenv g₂ tid caller isAdmin s₂ c₂).result ≠ .closed)
    ∧ (cenv.update_ok = false → cenv.send_ok = true →
        ∀ w, (openByThread s₂ g₂ tid).head? = some w →
        (isAdmin || caller == w.user_id) = true →
        (close_whisper cenv g₂ tid caller isAdmin s₂ c₂).result = .errorCaught) := by
  refine ⟨?_, ?_, ?_, ?_⟩
  · intro hins
    by_cases hen : env.whisper_enabled = false
    · simp [create_whisper, hen]
    cases hlk : lookupWhisper c g u with
    | some t => simp [create_whisper, hen, hlk]
    | none =>
      by_cases hch : env.channel_ok = false
      · simp [create_whisper, hen, hlk, hch]
      by_cases hth : env.thread_ok = false
      · simp [create_whisper, hen, hlk, hch, hth]
      by_cases hmsg : env.msg_ok = false
      · simp [create_whisper, hen, hlk, hch, hth, hmsg]
      · simp [create_whisper, hen, hlk, hch, hth, hmsg, hins]
  · intro hins hen hlk hch hth hmsg
    simp [create_whisper, hen, hlk, hch, hth, hmsg, hins]
  · intro hupd
    cases hw : (openByThread s₂ g₂ tid).head? with
    | none => simp [close_whisper, hw]
    | some w =>
      by_cases hperm : (isAdmin || caller == w.user_id) = true
      · by_cases hsend : cenv.send_ok = false
        · simp [close_whisper, hw, hperm, hsend]
        · simp [close_whisper, hw, hperm, hsend, hupd]
      · simp [close_whisper, hw, hperm]
  · intro hupd hsend w hw hperm
    simp [close_whisper, hw, hperm, hsend, hupd]

theorem C8_witness :
    ((⟨true, true, true, true, false, 9, 3⟩ : OpenEnv).insert_ok = false
      ∧ (create_whisper ⟨true, true, true, true, false, 9, 3⟩ 1 2 [] []).cache = []
      ∧ (create_whisper ⟨true, true, true, true, false, 9, 3⟩ 1 2 [] []).store = [])
    ∧ ((⟨true, false, true, 8⟩ : CloseEnv).update_ok = false
      ∧ (close_whisper ⟨true, false, true, 8⟩ 1 5 9 true
          [⟨1, 2, 5, 0, none, true⟩] [(1, [(2, 5)])]).cache = [(1, [(2, 5)])]
      ∧ (close_whisper ⟨true, false, true, 8⟩ 1 5 9 true
          [⟨1, 2, 5, 0, none, true⟩] [(1, [(2, 5)])]).result = .errorCaught) :=
  ⟨⟨rfl,
    ((C8_store_first ⟨true, true, true, true, false, 9, 3⟩ ⟨true, false, true, 8⟩
        1 2 1 5 9 true [] [⟨1, 2, 5, 0, none, true⟩] [] [(1, [(2, 5)])]).1 rfl).1,
    ((C8_store_first ⟨true, true, true, true, false, 9, 3⟩ ⟨true, false, true, 8⟩
        1 2 1 5 9 true [] [⟨1, 2, 5, 0, none, true⟩] [] [(1, [(2, 5)])]).1 rfl).2.1⟩,
   ⟨rfl,
    (((C8_store_first ⟨true, true, true, true, false, 9, 3⟩ ⟨true, false, true, 8⟩
        1 2 1 5 9 true [] [⟨1, 2, 5, 0, none, true⟩] [] [(1, [(2, 5)])]).2.2.1) rfl).1,
    ((C8_store_first ⟨true, true, true, true, false, 9, 3⟩ ⟨true, false, true, 8⟩
        1 2 1 5 9 true [] [⟨1, 2, 5, 0, none, true⟩] [] [(1, [(2, 5)])]).2.2.2) rfl rfl
      ⟨1, 2, 5, 0, none, true⟩ rfl rfl⟩⟩

/-- C9 fails on the code: in `ModerationCog.kick` the permission check —
which awaits a `config.get` read — runs before the handler's `try` block.
For a non-administrator caller whose configuration read raises, the
exception leaves the handler uncaught instead of becoming a user-visible
message. -/
theorem C9_counterexample :
    kickRun ⟨true, false, false, true, false, false, true, true, true,
      false, false, false⟩ = .uncaught := rfl

/-- C9 amended: every error arising inside a handler's `try` block is
caught at the handler boundary and converted into a reply — for `kick`,
whenever the pre-`try` configuration read does not raise, no modelled
failure (permission, bot permission, hierarchy, forbidden kick, other
kick error, log error) escapes the handler.  Errors raised by the
permission check that runs before the `try` block, however, propagate. -/
theorem C9_errors_caught_inside_try (env : ModEnv)
    (hconf : env.config_ok = true) :
    kickRun env ≠ .uncaught := by
  unfold kickRun check_mod_permissions
  by_cases hg : env.in_guild = false
  · simp [hg]
  by_cases ha : (env.admin || env.manage_guild) = true
  · by_cases h1 : env.bot_can_kick = false
    · simp [hg, ha, h1]
    by_cases h2 : env.hierarchy_ok = false
    · simp [hg, ha, h1, h2]
    by_cases h3 : env.kick_forbidden = true
    · simp [hg, ha, h1, h2, h3]
    by_cases h4 : env.kick_fails = true
    · simp [hg, ha, h1, h2, h3, h4]
    by_cases h5 : env.log_fails = true
    · simp [hg, ha, h1, h2, h3, h4, h5]
    · simp [hg, ha, h1, h2, h3, h4, h5]
  · have hconf' : ¬env.config_ok = false := by simp [hconf]
    by_cases hm : env.moderation_enabled = false
    · simp [hg, ha, hconf', hm]
    · by_cases hk : (env.kick_members || env.ban_members) = true
      · by_cases h1 : env.bot_can_kick = false
        · simp [hg, ha, hconf', hm, hk, h1]
        by_cases h2 : env.hierarchy_ok = false
        · simp [hg, ha, hconf', hm, hk, h1, h2]
        by_cases h3 : env.kick_forbidden = true
        · simp [hg, ha, hconf', hm, hk, h1, h2, h3]
        by_cases h4 : env.kick_fails = true
        · simp [hg, ha, hconf', hm, hk, h1, h2, h3, h4]
        by_cases h5 : env.log_fails = true
        · simp [hg, ha, hconf', hm, hk, h1, h2, h3, h4, h5]
        · simp [hg, ha, hconf', hm, hk, h1, h2, h3, h4, h5]
      · have hk' : (env.kick_members || env.ban_members) = false := by
          revert hk; cases (env.kick_members || env.ban_members) <;> simp
        simp [hg, ha, hconf', hm, hk']

theorem C9_witness :
    (⟨true, false, false, true, false, true, true, true, true,
        false, true, false⟩ : ModEnv).config_ok = true
    ∧ kickRun ⟨true, false, false, true, false, true, true, true, true,
        false, true, false⟩ ≠ .uncaught :=
  ⟨rfl,
    C9_errors_caught_inside_try
      ⟨true, false, false, true, false, true, true, true, true,
        false, true, false⟩ rfl⟩

/-- C10: in the shared moderation permission check, a caller in the guild
holding administrator or manage-guild passes unconditionally — the
per-server `moderation_enabled` flag is never consulted for them — and
when that flag is false (read successfully) any caller without those two
permissions is refused, whatever kick-members / ban-members permissions
they hold. -/
theorem C10_mod_permission_check (env : ModEnv) (hg : env.in_guild = true) :
    ((env.admin || env.manage_guild) = true →
      check_mod_permissions env = .ok true)
    ∧ (env.admin = false → env.manage_guild = false → env.config_ok = true →
      env.moderation_enabled = false →
      check_mod_permissions env = .ok false) := by
  constructor
  · intro ha
    simp [check_mod_permissions, hg, ha]
  · intro ha hm hc hflag
    simp [check_mod_permissions, hg, ha, hm, hc, hflag]

theorem C10_witness :
    (check_mod_permissions ⟨true, false, true, false, false, false, false,
        true, true, false, false, false⟩ = .ok true)
    ∧ (check_mod_permissions ⟨true, false, false, true, true, true, false,
        true, true, false, false, false⟩ = .ok false) :=
  ⟨(C10_mod_permission_check ⟨true, false, true, false, false, false, false,
      true, true, false, false, false⟩ rfl).1 rfl,
   (C10_mod_permission_check ⟨true, false, false, true, true, true, false,
      true, true, false, false, false⟩ rfl).2 rfl rfl rfl rfl⟩

end OnWhisper
